import Mathlib

/-!
Shallow embedding of the demo-site provisioning orchestrator described by the
repository specification. The repository ships only its HTTP test scripts
(testsprite_tests); the orchestrator core itself is not part of the source
tree, so every definition below is modelled from the specification text
(sections 2-8 of spec.md), staying as close as possible to its words and to
the behavior the test scripts exercise.
-/

/-- Modelled from the spec: substring test on character lists used to state
that an error message references a slug or a failure cause. -/
def startsWithList : List Char → List Char → Bool
  | [], _ => true
  | _ :: _, [] => false
  | a :: as, b :: bs => a == b && startsWithList as bs

/-- Modelled from the spec: does the needle occur somewhere in the haystack. -/
def hasSubList (needle : List Char) : List Char → Bool
  | [] => needle.isEmpty
  | c :: rest => startsWithList needle (c :: rest) || hasSubList needle rest

/-- Modelled from the spec: string containment, used for message checks. -/
def containsSub (hay needle : String) : Bool :=
  hasSubList needle.data hay.data

/-- Modelled from the spec: job source is exactly one of a template id or a
repository URL (spec section 3, field source). -/
inductive JobSource
  | template (id : String)
  | repo (url : String)
deriving DecidableEq

/-- Modelled from the spec: repository coordinates captured when the agent is
triggered (spec section 3, field taskState). -/
structure AgentTaskState where
  baseCommitHash : String
  branchName : String
deriving DecidableEq

/-- Modelled from the spec: the job state enumeration, monotonic except that
any state may transition to failed (spec section 3, field state). -/
inductive JobState
  | starting
  | cloning
  | installing
  | organizing
  | prompting
  | triggering
  | running
  | completed
  | failed
deriving DecidableEq

/-- Modelled from the spec: the Job record, the central entity (spec
section 3). Timestamps are omitted; no claim concerns them. currentStep and
totalSteps are the integer progress fields; logs is the append-only ordered
sequence of log lines; workingDir is the provisioned working directory,
absent until cloning succeeds and removed again on clone failure. -/
structure Job where
  slug : String
  businessName : String
  source : JobSource
  state : JobState
  currentStep : Nat
  totalSteps : Nat
  message : String
  logs : List String
  taskState : Option AgentTaskState
  workingDir : Option String
deriving DecidableEq

/-- Modelled from the spec: the JobRegistry lookup, get(slug) (spec
section 4.2). The registry is the list of admitted, non-deleted jobs. -/
def getJob (r : List Job) (s : String) : Option Job :=
  r.find? (fun j => j.slug == s)

/-- Modelled from the spec: a slug is taken when an admitted, non-deleted job
holds it (spec section 3, slug uniqueness invariant). -/
def slugTaken (r : List Job) (s : String) : Bool :=
  (getJob r s).isSome

/-- Modelled from the spec: the fixed reserved-slug set (spec section 3). -/
def reservedSlugs : List String :=
  ["admin", "api", "login", "signup"]

/-- Modelled from the spec: replace a non-alphanumeric character by a hyphen
(spec section 4.1, normalization). -/
def hyphenate (c : Char) : Char :=
  if c.isAlphanum then c else '-'

/-- Modelled from the spec: collapse runs of hyphens to a single hyphen
(spec section 4.1, normalization). -/
def squeezeHyphens : List Char → List Char
  | [] => []
  | [c] => [c]
  | a :: b :: t =>
    if a == '-' && b == '-' then squeezeHyphens (b :: t)
    else a :: squeezeHyphens (b :: t)

/-- Modelled from the spec: slug normalization — lowercase, replace
non-alphanumeric runs with a single hyphen, strip leading and trailing
hyphens (spec section 4.1). -/
def normalizeSlug (s : String) : String :=
  let cs := (s.data.map Char.toLower).map hyphenate
  let cs := squeezeHyphens cs
  let cs := cs.dropWhile (fun c => c == '-')
  let cs := ((cs.reverse.dropWhile (fun c => c == '-')).reverse)
  String.mk cs

/-- Modelled from the spec: the explicit-slug pattern accepted at the request
boundary — non-empty, lowercase letters, digits and hyphens only (spec
section 6, invalid slug format yields a client error). -/
def validSlugPattern (s : String) : Bool :=
  !(s == "") && s.data.all (fun c => c.isLower || c.isDigit || c == '-')

/-- Modelled from the spec: hex digit test for color validation. -/
def hexDigit (c : Char) : Bool :=
  c.isDigit || ('a' ≤ c && c ≤ 'f') || ('A' ≤ c && c ≤ 'F')

/-- Modelled from the spec: a primary color must be a hash sign followed by
six hex digits (spec section 6; test TC013 rejects non-hex colors). -/
def isHexColor (s : String) : Bool :=
  match s.data with
  | '#' :: rest => rest.length == 6 && rest.all hexDigit
  | _ => false

/-- Modelled from the spec: the candidate sequence tried by the
SlugAllocator — the base, then the base with numeric suffixes 2, 3, ...
(spec section 4.1, append a numeric suffix and retry until free). -/
def slugCandidates (base : String) (fuel : Nat) : List String :=
  base :: (List.range fuel).map (fun i => base ++ "-" ++ toString (i + 2))

/-- Modelled from the spec: a slug is free when it is neither taken by an
admitted job nor reserved (spec sections 3 and 4.1). -/
def slugFree (r : List Job) (s : String) : Bool :=
  !slugTaken r s && !reservedSlugs.contains s

/-- Modelled from the spec: uniqueness/reservation resolution — the first
free candidate derived from the base (spec section 4.1). The fuel bounds the
retry loop; it exceeds the number of admitted jobs plus reserved names. -/
def resolveSlug (r : List Job) (base : String) : Option String :=
  (slugCandidates base (r.length + reservedSlugs.length + 1)).find? (slugFree r)

/-- Modelled from the spec: the error taxonomy visible at the creation
boundary (spec section 7): validation errors identify the offending field,
conflicts carry a message referencing the slug. -/
inductive CreateError
  | missingField (field : String)
  | invalidField (field : String) (hint : String)
  | conflict (msg : String)
deriving DecidableEq

/-- Modelled from the spec: the conflict message for a taken slug (spec
section 8 scenario — the conflict message references the slug). -/
def conflictMessage (s : String) : String :=
  "Slug " ++ s ++ " is already taken"

/-- Modelled from the spec: a creation request — business/branding fields
plus exactly one of template id or repository URL, and an optional explicit
slug (spec section 6, Create job). -/
structure CreateRequest where
  businessName : Option String
  primaryColor : Option String
  templateId : Option String
  githubRepoUrl : Option String
  slug : Option String
deriving DecidableEq

/-- Modelled from the spec: the immediate creation response, the allocated
slug plus the starting state (spec section 6, Create job). -/
structure CreateResponse where
  clientSlug : String
  state : JobState
deriving DecidableEq

/-- Modelled from the spec: synchronous field validation at the request
boundary — required fields, hex color format and the exactly-one-source rule
(spec sections 6 and 7, validation errors reported synchronously). -/
def validateFields (req : CreateRequest) : Except CreateError (String × String × JobSource) :=
  match req.businessName with
  | none => Except.error (CreateError.missingField "businessName")
  | some name =>
    match req.primaryColor with
    | none => Except.error (CreateError.missingField "primaryColor")
    | some color =>
      if isHexColor color then
        match req.templateId, req.githubRepoUrl with
        | some _, some _ =>
          Except.error (CreateError.invalidField "source" "provide exactly one of templateId or githubRepoUrl")
        | none, none =>
          Except.error (CreateError.missingField "templateId or githubRepoUrl")
        | some t, none => Except.ok (name, color, JobSource.template t)
        | none, some u => Except.ok (name, color, JobSource.repo u)
      else
        Except.error (CreateError.invalidField "primaryColor" "must be a hex color like #RRGGBB")

/-- Modelled from the spec: slug resolution for a creation request. An
explicit slug must match the pattern; a second request for an existing,
non-deleted slug fails with a conflict referencing the slug (spec section 3
invariant and section 8 scenario); a reserved explicit slug is transparently
suffixed (spec sections 3 and 4.1); with no explicit slug the candidate name
is normalized and the same uniqueness/reservation resolution applies. -/
def resolveRequestSlug (r : List Job) (name : String) (explicitSlug : Option String) :
    Except CreateError String :=
  match explicitSlug with
  | some s =>
    if validSlugPattern s then
      if slugTaken r s then Except.error (CreateError.conflict (conflictMessage s))
      else if reservedSlugs.contains s then
        match resolveSlug r s with
        | some s2 => Except.ok s2
        | none => Except.error (CreateError.invalidField "slug" "could not allocate a free slug")
      else Except.ok s
    else Except.error (CreateError.invalidField "slug" "must contain only lowercase letters, digits and hyphens")
  | none =>
    let base := normalizeSlug name
    if base == "" then
      Except.error (CreateError.invalidField "businessName" "name normalizes to an empty slug")
    else
      match resolveSlug r base with
      | some s2 => Except.ok s2
      | none => Except.error (CreateError.invalidField "slug" "could not allocate a free slug")

/-- Modelled from the spec: the job record admitted for a fresh request —
state starting, step 0 of 7, empty logs, no task state, no working
directory yet (spec sections 3 and 4.8). -/
def initialJob (s name : String) (src : JobSource) : Job :=
  { slug := s
    businessName := name
    source := src
    state := JobState.starting
    currentStep := 0
    totalSteps := 7
    message := "Demo creation started"
    logs := []
    taskState := none
    workingDir := none }

/-- Modelled from the spec: the creation operation — validate fields,
allocate the slug, admit the job, and answer immediately with the slug and
the starting state (spec sections 4.1, 4.2, 5 and 6). -/
def createJob (r : List Job) (req : CreateRequest) :
    Except CreateError (CreateResponse × List Job) :=
  match validateFields req with
  | Except.error e => Except.error e
  | Except.ok (name, _color, src) =>
    match resolveRequestSlug r name req.slug with
    | Except.error e => Except.error e
    | Except.ok s =>
      Except.ok ({ clientSlug := s, state := JobState.starting }, initialJob s name src :: r)

/-- Modelled from the spec: outcome of the RepositoryProvisioner's attempt to
materialize the source — success with a working directory, or one of the
failure causes (404 on the source, network error, timeout; spec
section 4.3). -/
inductive CloneOutcome
  | cloned (dir : String)
  | sourceMissing
  | networkError
  | timedOut
deriving DecidableEq

/-- Modelled from the spec: the provisioning failure message identifies the
cause as a cloning/repository problem (spec section 4.3). -/
def cloneFailMessage : CloneOutcome → String
  | CloneOutcome.sourceMissing => "Failed to clone repository: repository not found (404)"
  | CloneOutcome.networkError => "Failed to clone repository: network error"
  | CloneOutcome.timedOut => "Failed to clone repository: timed out"
  | CloneOutcome.cloned _ => ""

/-- Modelled from the spec: the environment of external, fallible
subprocesses a job's pipeline runs against — clone outcome, installer
result and streamed output, asset/brief/trigger step results, the commit
hash captured from the provisioned repository, and whether the agent run
has reported finished (spec sections 4.3-4.8). -/
structure Env where
  clone : CloneOutcome
  installOk : Bool
  installLog : List String
  organizeOk : Bool
  promptOk : Bool
  triggerOk : Bool
  commitHash : String
  agentDone : Bool
deriving DecidableEq

/-- Modelled from the spec: every possible step-failure message; a failed
job's message is one of these, each naming the step that failed (spec
sections 4.3-4.8 and the invariant in section 3). -/
def failureMessages : List String :=
  [ "Failed to clone repository: repository not found (404)"
  , "Failed to clone repository: network error"
  , "Failed to clone repository: timed out"
  , "Dependency installation failed"
  , "Failed to organize branding assets"
  , "Failed to generate task brief"
  , "Failed to trigger cursor agent" ]

/-- Modelled from the spec: move a job to failed with an explanatory message,
appended to the log; failures are terminal (spec sections 4.8 and 7). -/
def failJob (j : Job) (msg : String) : Job :=
  { j with state := JobState.failed, message := msg, logs := j.logs ++ [msg] }

/-- Modelled from the spec: the step index each non-failed state corresponds
to along the forward pipeline (spec section 4.8, currentStep advances
monotonically with the arrow index). -/
def stateIdx : JobState → Nat
  | JobState.starting => 0
  | JobState.cloning => 1
  | JobState.installing => 2
  | JobState.organizing => 3
  | JobState.prompting => 4
  | JobState.triggering => 5
  | JobState.running => 6
  | JobState.completed => 7
  | JobState.failed => 0

/-- Modelled from the spec: one Orchestrator step — each arrow of
starting → cloning → installing → organizing → prompting → triggering →
running → completed corresponds to one component call; any step's failure
moves the job directly to failed; a clone failure removes any partial
working directory; installer output streams into the log; triggering
captures the base commit hash and the job-named branch before the job is
observed running (spec sections 4.3-4.8). -/
def stepJob (env : Env) (j : Job) : Job :=
  match j.state with
  | JobState.starting =>
    { j with state := JobState.cloning, currentStep := 1,
             message := "Cloning repository",
             logs := j.logs ++ ["Cloning repository"] }
  | JobState.cloning =>
    match env.clone with
    | CloneOutcome.cloned dir =>
      { j with state := JobState.installing, currentStep := 2,
               workingDir := some dir,
               message := "Installing dependencies",
               logs := j.logs ++ ["Repository cloned", "Installing dependencies"] }
    | oc => { failJob j (cloneFailMessage oc) with workingDir := none }
  | JobState.installing =>
    if env.installOk then
      { j with state := JobState.organizing, currentStep := 3,
               message := "Organizing branding assets",
               logs := j.logs ++ env.installLog ++ ["Organizing branding assets"] }
    else failJob { j with logs := j.logs ++ env.installLog } "Dependency installation failed"
  | JobState.organizing =>
    if env.organizeOk then
      { j with state := JobState.prompting, currentStep := 4,
               message := "Generating task brief",
               logs := j.logs ++ ["Generating task brief"] }
    else failJob j "Failed to organize branding assets"
  | JobState.prompting =>
    if env.promptOk then
      { j with state := JobState.triggering, currentStep := 5,
               message := "Triggering cursor agent",
               logs := j.logs ++ ["Triggering cursor agent"] }
    else failJob j "Failed to generate task brief"
  | JobState.triggering =>
    if env.triggerOk then
      { j with state := JobState.running, currentStep := 6,
               message := "Cursor agent is working",
               taskState := some { baseCommitHash := env.commitHash, branchName := j.slug },
               logs := j.logs ++ ["Cursor agent triggered", "Cursor agent is working"] }
    else failJob j "Failed to trigger cursor agent"
  | JobState.running =>
    if env.agentDone then
      { j with state := JobState.completed, currentStep := 7,
               message := "Demo creation completed",
               logs := j.logs ++ ["Demo creation completed"] }
    else j
  | JobState.completed => j
  | JobState.failed => j

/-- Modelled from the spec: run n Orchestrator steps; each poll of the
status interface observes the job after some number of steps (spec
sections 4.8 and 5). -/
def runSteps (env : Env) (j : Job) : Nat → Job
  | 0 => j
  | n + 1 => runSteps env (stepJob env j) n

/-- Modelled from the spec: the status view returned by the status
interface — state, message, logs, step counters and the optional task state
(spec section 6, Get job status). -/
structure StatusView where
  state : JobState
  message : String
  logs : List String
  currentStep : Nat
  totalSteps : Nat
  taskState : Option AgentTaskState
deriving DecidableEq

/-- Modelled from the spec: project a committed job record to its status
view. -/
def viewOf (j : Job) : StatusView :=
  { state := j.state, message := j.message, logs := j.logs,
    currentStep := j.currentStep, totalSteps := j.totalSteps,
    taskState := j.taskState }

/-- Modelled from the spec: the status read — the latest committed snapshot
of the job record, a pure function of the registry (spec sections 4.2, 5
and 6). -/
def statusRead (r : List Job) (s : String) : Option StatusView :=
  (getJob r s).map viewOf

/-- Modelled from the spec: the progress invariant — totalSteps is the
pipeline length, currentStep stays within bounds, and outside failed the
step counter equals the state's arrow index (spec sections 3 and 4.8). -/
def StepInv (j : Job) : Prop :=
  j.totalSteps = 7 ∧ j.currentStep ≤ j.totalSteps ∧
    (j.state ≠ JobState.failed → j.currentStep = stateIdx j.state)

/-- Modelled from the spec: a running job carries a populated task state with
non-empty base commit hash and branch name (spec section 3). -/
def RunTaskInv (j : Job) : Prop :=
  j.state = JobState.running →
    ∃ ts, j.taskState = some ts ∧ ts.baseCommitHash ≠ "" ∧ ts.branchName ≠ ""

/-- Modelled from the spec: by the time a job is observed running, installer
and agent output has been merged into its log stream, so the log is
non-empty (test TC020; spec sections 4.4 and 4.7). -/
def RunLogsInv (j : Job) : Prop :=
  j.state = JobState.running → j.logs ≠ []

/-- Modelled from the spec: a failed job's message is one of the step-failure
descriptions, hence non-empty and naming the failing step (spec section 3
invariant). -/
def FailInv (j : Job) : Prop :=
  j.state = JobState.failed → j.message ∈ failureMessages

/-- Concrete template-sourced creation request used to instantiate the
theorems (mirrors the scenario in spec section 8). -/
def reqT : CreateRequest :=
  { businessName := some "Test Business", primaryColor := some "#123ABC",
    templateId := some "default-template", githubRepoUrl := none, slug := none }

/-- Concrete creation request with an explicit slug. -/
def reqExplicit : CreateRequest :=
  { businessName := some "Acme Co", primaryColor := some "#123ABC",
    templateId := some "default-template", githubRepoUrl := none,
    slug := some "acme-co" }

/-- Concrete creation request with a reserved explicit slug. -/
def reqReserved : CreateRequest :=
  { businessName := some "Reserved Business", primaryColor := some "#123456",
    templateId := some "default-template", githubRepoUrl := none,
    slug := some "admin" }

/-- Concrete creation request whose repository source does not exist. -/
def reqRepo : CreateRequest :=
  { businessName := some "Test Business", primaryColor := some "#123ABC",
    templateId := none,
    githubRepoUrl := some "https://github.com/no-such-user/no-such-repo",
    slug := none }

/-- Concrete environment in which every external step succeeds. -/
def envOk : Env :=
  { clone := CloneOutcome.cloned "/demos/test-business", installOk := true,
    installLog := ["added 120 packages"], organizeOk := true,
    promptOk := true, triggerOk := true, commitHash := "abc123def",
    agentDone := false }

/-- Concrete environment in which the repository source is missing. -/
def envBadRepo : Env :=
  { envOk with clone := CloneOutcome.sourceMissing }

/-- The job admitted for reqT on an empty registry. -/
def jW : Job :=
  initialJob "test-business" "Test Business" (JobSource.template "default-template")

/-- The job admitted for reqRepo on an empty registry. -/
def jWR : Job :=
  initialJob "test-business" "Test Business"
    (JobSource.repo "https://github.com/no-such-user/no-such-repo")

/-- A second registry agreeing with the singleton one on the slug
test-business but holding one more unrelated job. -/
def rW2 : List Job :=
  [jW, initialJob "acme-co" "Acme Co" (JobSource.template "default-template")]

/-- Appending strings appends their character data. -/
theorem stringData_append (a b : String) : (a ++ b).data = a.data ++ b.data := by
  cases a; cases b; rfl

/-- A list starts with itself followed by anything. -/
theorem startsWithList_self (xs ys : List Char) : startsWithList xs (xs ++ ys) = true := by
  induction xs with
  | nil => rfl
  | cons a as ih => simp [startsWithList, ih]

/-- Starting with the needle is one way of containing it. -/
theorem hasSubList_of_starts (needle hay : List Char)
    (h : startsWithList needle hay = true) : hasSubList needle hay = true := by
  cases hay with
  | nil =>
    cases needle with
    | nil => rfl
    | cons a as => simp [startsWithList] at h
  | cons c rest => simp [hasSubList, h]

/-- Containment survives prepending arbitrary characters. -/
theorem hasSubList_append_left (pre needle hay : List Char)
    (h : hasSubList needle hay = true) : hasSubList needle (pre ++ hay) = true := by
  induction pre with
  | nil => simpa using h
  | cons c cs ih => simp [hasSubList, ih]

/-- A string built around s as an infix piece contains s. -/
theorem containsSub_sandwich (pre s post : String) :
    containsSub (pre ++ s ++ post) s = true := by
  unfold containsSub
  rw [stringData_append, stringData_append, List.append_assoc]
  exact hasSubList_append_left _ _ _
    (hasSubList_of_starts _ _ (startsWithList_self s.data post.data))

/-- No reserved name has the shape of a dash-2 suffixed base. -/
theorem reserved_no_dash2 (b : String) :
    reservedSlugs.contains (b ++ "-2") = false := by
  have key : ∀ t : String, t ∈ reservedSlugs → b ++ "-2" ≠ t := by
    intro t ht he
    have hd : (b ++ "-2").data = t.data := congrArg String.data he
    rw [stringData_append] at hd
    have hrev := congrArg List.reverse hd
    rw [List.reverse_append] at hrev
    fin_cases ht <;> simp_all
  rw [show reservedSlugs.contains (b ++ "-2") = reservedSlugs.elem (b ++ "-2") from rfl,
    List.elem_eq_mem, decide_eq_false_iff_not]
  intro hmem
  exact key _ hmem rfl

/-- Equal character data means equal strings. -/
theorem stringExt (a b : String) (h : a.data = b.data) : a = b := by
  cases a; cases b; simp_all

/-- String append is associative. -/
theorem stringAppend_assoc (a b c : String) : a ++ b ++ c = a ++ (b ++ c) := by
  refine stringExt _ _ ?_
  rw [stringData_append, stringData_append, stringData_append, stringData_append,
    List.append_assoc]

/-- Appending to a non-empty string stays non-empty. -/
theorem append_ne_empty_left (a b : String) (h : a ≠ "") : a ++ b ≠ "" := by
  intro he
  have hd : (a ++ b).data = [] := congrArg String.data he
  rw [stringData_append, List.append_eq_nil] at hd
  exact h (stringExt a "" hd.1)

/-- Membership phrasing of the Boolean contains test. -/
theorem contains_mem_iff (l : List String) (a : String) :
    l.contains a = true ↔ a ∈ l := by
  rw [show l.contains a = l.elem a from rfl, List.elem_eq_mem, decide_eq_true_iff]

/-- Slug lookup on a registry with one more admitted job. -/
theorem slugTaken_cons (j : Job) (r : List Job) (s : String) :
    slugTaken (j :: r) s = (j.slug == s || slugTaken r s) := by
  unfold slugTaken getJob
  rw [List.find?_cons]
  cases h : (j.slug == s) with
  | true => simp [h]
  | false => simp [h]

/-- Looking up the slug of the most recently admitted job finds it. -/
theorem getJob_cons_self (j : Job) (r : List Job) : getJob (j :: r) j.slug = some j := by
  unfold getJob
  exact List.find?_cons_of_pos _ (by simp)

/-- Every allocator candidate is the base or the base plus a non-empty
suffix. -/
theorem slugCandidates_shape (base : String) (fuel : Nat) (s : String)
    (h : s ∈ slugCandidates base fuel) :
    s = base ∨ ∃ t, t ≠ "" ∧ s = base ++ t := by
  unfold slugCandidates at h
  rcases List.mem_cons.mp h with h0 | hmap
  · exact Or.inl h0
  · right
    obtain ⟨i, _, hi⟩ := List.mem_map.mp hmap
    refine ⟨"-" ++ toString (i + 2), ?_, ?_⟩
    · intro he
      have hd : ("-" ++ toString (i + 2)).data = [] := congrArg String.data he
      rw [stringData_append] at hd
      simp at hd
    · rw [← hi, stringAppend_assoc]

/-- A slug the allocator resolves is free, unreserved, and extends the
base. -/
theorem resolveSlug_ok {r : List Job} {base s : String}
    (h : resolveSlug r base = some s) :
    slugTaken r s = false ∧ reservedSlugs.contains s = false ∧
      (s = base ∨ ∃ t, t ≠ "" ∧ s = base ++ t) := by
  have hfree := List.find?_some h
  have hmem := List.mem_of_find?_eq_some h
  unfold slugFree at hfree
  rw [Bool.and_eq_true, Bool.not_eq_true', Bool.not_eq_true'] at hfree
  exact ⟨hfree.1, hfree.2, slugCandidates_shape _ _ _ hmem⟩

/-- A slug resolved for a creation request is non-empty, free and
unreserved. -/
theorem resolveRequestSlug_ok {r : List Job} {name : String} {ex : Option String}
    {s : String} (h : resolveRequestSlug r name ex = Except.ok s) :
    s ≠ "" ∧ slugTaken r s = false ∧ reservedSlugs.contains s = false := by
  cases ex with
  | some e =>
    by_cases hv : validSlugPattern e = true
    · by_cases ht : slugTaken r e = true
      · simp [resolveRequestSlug, hv, ht] at h
      · rw [Bool.not_eq_true] at ht
        by_cases hres : e ∈ reservedSlugs
        · cases hr : resolveSlug r e with
          | none => simp [resolveRequestSlug, hv, ht, hres, hr] at h
          | some s2 =>
            have hs2 : s2 = s := by
              simp [resolveRequestSlug, hv, ht, hres, hr] at h
              exact h
            subst hs2
            obtain ⟨h1, h2, h3⟩ := resolveSlug_ok hr
            have he : e ≠ "" := by
              have := hv
              simp [validSlugPattern] at this
              exact this.1
            refine ⟨?_, h1, h2⟩
            rcases h3 with h3 | ⟨t, _, h3⟩
            · rw [h3]; exact he
            · rw [h3]; exact append_ne_empty_left _ _ he
        · have hs : e = s := by
            simp [resolveRequestSlug, hv, ht, hres] at h
            exact h
          subst hs
          have he : e ≠ "" := by
            have := hv
            simp [validSlugPattern] at this
            exact this.1
          refine ⟨he, ht, ?_⟩
          cases hc : reservedSlugs.contains e with
          | false => rfl
          | true => exact absurd ((contains_mem_iff _ _).mp hc) hres
    · simp [resolveRequestSlug, hv] at h
  | none =>
    by_cases hb : normalizeSlug name = ""
    · simp [resolveRequestSlug, hb] at h
    · cases hr : resolveSlug r (normalizeSlug name) with
      | none => simp [resolveRequestSlug, hb, hr] at h
      | some s2 =>
        have hs2 : s2 = s := by
          simp [resolveRequestSlug, hb, hr] at h
          exact h
        subst hs2
        obtain ⟨h1, h2, h3⟩ := resolveSlug_ok hr
        refine ⟨?_, h1, h2⟩
        rcases h3 with h3 | ⟨t, _, h3⟩
        · rw [h3]; exact hb
        · rw [h3]; exact append_ne_empty_left _ _ hb

/-- Inverting a successful creation: the fields validated, the response is
the starting acknowledgment, and the admitted job heads the registry with a
non-empty, previously free, unreserved slug. -/
theorem createJob_ok_cases {r : List Job} {req : CreateRequest}
    {res : CreateResponse} {r' : List Job}
    (h : createJob r req = Except.ok (res, r')) :
    ∃ name color src,
      validateFields req = Except.ok (name, color, src) ∧
      resolveRequestSlug r name req.slug = Except.ok res.clientSlug ∧
      res.state = JobState.starting ∧
      r' = initialJob res.clientSlug name src :: r ∧
      res.clientSlug ≠ "" ∧
      slugTaken r res.clientSlug = false ∧
      reservedSlugs.contains res.clientSlug = false := by
  unfold createJob at h
  split at h
  · exact absurd h (by simp)
  · rename_i name color src hv
    split at h
    · exact absurd h (by simp)
    · rename_i s hs
      rw [Except.ok.injEq, Prod.mk.injEq] at h
      obtain ⟨hres, hr'⟩ := h
      obtain ⟨h1, h2, h3⟩ := resolveRequestSlug_ok hs
      have h4 : s ∉ reservedSlugs := by
        intro hm
        rw [(contains_mem_iff _ _).mpr hm] at h3
        exact Bool.noConfusion h3
      refine ⟨name, color, src, hv, ?_, ?_, ?_, ?_, ?_, ?_⟩ <;>
        rw [← hres] <;> simp [← hr', hs, h1, h2, h3, h4]

/-- The slug is immutable across Orchestrator steps. -/
theorem stepJob_slug (env : Env) (j : Job) : (stepJob env j).slug = j.slug := by
  unfold stepJob
  cases j.state with
  | starting => rfl
  | cloning => cases env.clone <;> simp [failJob]
  | installing => cases env.installOk <;> simp [failJob]
  | organizing => cases env.organizeOk <;> simp [failJob]
  | prompting => cases env.promptOk <;> simp [failJob]
  | triggering => cases env.triggerOk <;> simp [failJob]
  | running => cases env.agentDone <;> simp [failJob]
  | completed => rfl
  | failed => rfl

/-- Failed is terminal: a step leaves a failed job untouched. -/
theorem stepJob_failed (env : Env) (j : Job) (h : j.state = JobState.failed) :
    stepJob env j = j := by
  unfold stepJob; rw [h]

/-- Running steps composes additively. -/
theorem runSteps_add (env : Env) (n m : Nat) (j : Job) :
    runSteps env j (n + m) = runSteps env (runSteps env j n) m := by
  induction n generalizing j with
  | zero => simp [runSteps]
  | succ k ih =>
    rw [Nat.succ_add]
    exact ih (stepJob env j)

/-- A failed job stays exactly as it is under any number of steps. -/
theorem runSteps_failed (env : Env) (j : Job) (h : j.state = JobState.failed)
    (m : Nat) : runSteps env j m = j := by
  induction m with
  | zero => rfl
  | succ k ih =>
    rw [show runSteps env j (k + 1) = runSteps env (stepJob env j) k from rfl,
      stepJob_failed env j h]
    exact ih

/-- One Orchestrator step preserves the progress invariant. -/
theorem stepJob_stepInv (env : Env) (j : Job) (h : StepInv j) :
    StepInv (stepJob env j) := by
  obtain ⟨sl, bn, src, st, cur, tot, ms, lg, ts, wd⟩ := j
  obtain ⟨ht, hb, hidx⟩ := h
  simp only [StepInv] at *
  cases st with
  | starting => refine ⟨ht, ?_, ?_⟩ <;> simp [stepJob, stateIdx, ht]
  | cloning =>
    have h1 : cur = 1 := hidx (by decide)
    cases hcl : env.clone <;> refine ⟨?_, ?_, ?_⟩ <;>
      simp [stepJob, failJob, stateIdx, ht, h1, hb, hcl]
  | installing =>
    have h2 : cur = 2 := hidx (by decide)
    cases hio : env.installOk <;> refine ⟨?_, ?_, ?_⟩ <;>
      simp [stepJob, failJob, stateIdx, ht, h2, hb, hio]
  | organizing =>
    have h3 : cur = 3 := hidx (by decide)
    cases ho : env.organizeOk <;> refine ⟨?_, ?_, ?_⟩ <;>
      simp [stepJob, failJob, stateIdx, ht, h3, hb, ho]
  | prompting =>
    have h4 : cur = 4 := hidx (by decide)
    cases hp : env.promptOk <;> refine ⟨?_, ?_, ?_⟩ <;>
      simp [stepJob, failJob, stateIdx, ht, h4, hb, hp]
  | triggering =>
    have h5 : cur = 5 := hidx (by decide)
    cases htr : env.triggerOk <;> refine ⟨?_, ?_, ?_⟩ <;>
      simp [stepJob, failJob, stateIdx, ht, h5, hb, htr]
  | running =>
    have h6 : cur = 6 := hidx (by decide)
    cases had : env.agentDone <;> refine ⟨?_, ?_, ?_⟩ <;>
      simp [stepJob, failJob, stateIdx, ht, h6, hb, had]
  | completed => refine ⟨ht, hb, ?_⟩; simp [stepJob, stateIdx, hidx (by decide)]
  | failed =>
    refine ⟨ht, hb, fun hne => ?_⟩
    rw [stepJob_failed env _ rfl] at hne
    exact (hne rfl).elim

/-- The step counter never decreases across one Orchestrator step. -/
theorem stepJob_mono (env : Env) (j : Job) (h : StepInv j) :
    j.currentStep ≤ (stepJob env j).currentStep := by
  obtain ⟨sl, bn, src, st, cur, tot, ms, lg, ts, wd⟩ := j
  obtain ⟨ht, hb, hidx⟩ := h
  simp only [StepInv] at *
  cases st with
  | starting =>
    have h0 : cur = 0 := hidx (by decide)
    simp [stepJob, h0]
  | cloning => cases hcl : env.clone <;> simp [stepJob, failJob, stateIdx, hcl, hidx (by decide)]
  | installing => cases hio : env.installOk <;> simp [stepJob, failJob, stateIdx, hio, hidx (by decide)]
  | organizing => cases ho : env.organizeOk <;> simp [stepJob, failJob, stateIdx, ho, hidx (by decide)]
  | prompting => cases hp : env.promptOk <;> simp [stepJob, failJob, stateIdx, hp, hidx (by decide)]
  | triggering => cases htr : env.triggerOk <;> simp [stepJob, failJob, stateIdx, htr, hidx (by decide)]
  | running => cases had : env.agentDone <;> simp [stepJob, failJob, stateIdx, had, hidx (by decide)]
  | completed => simp [stepJob]
  | failed => simp [stepJob]

/-- Any number of steps preserves the progress invariant. -/
theorem runSteps_stepInv (env : Env) (j : Job) (h : StepInv j) (n : Nat) :
    StepInv (runSteps env j n) := by
  induction n generalizing j with
  | zero => exact h
  | succ k ih => exact ih (stepJob env j) (stepJob_stepInv env j h)

/-- The step counter never decreases across any number of steps. -/
theorem runSteps_mono (env : Env) (j : Job) (h : StepInv j) (m : Nat) :
    j.currentStep ≤ (runSteps env j m).currentStep := by
  induction m generalizing j with
  | zero => exact Nat.le_refl _
  | succ k ih =>
    exact Nat.le_trans (stepJob_mono env j h)
      (ih (stepJob env j) (stepJob_stepInv env j h))

/-- The slug is immutable across any number of steps. -/
theorem runSteps_slug (env : Env) (j : Job) (m : Nat) :
    (runSteps env j m).slug = j.slug := by
  induction m generalizing j with
  | zero => rfl
  | succ k ih =>
    rw [show runSteps env j (k + 1) = runSteps env (stepJob env j) k from rfl, ih,
      stepJob_slug]

/-- One step preserves the running-task-state invariant, provided the
captured commit hash and the job slug are non-empty. -/
theorem stepJob_runTask (env : Env) (j : Job) (hslug : j.slug ≠ "")
    (hhash : env.commitHash ≠ "") (h : RunTaskInv j) :
    RunTaskInv (stepJob env j) := by
  obtain ⟨sl, bn, src, st, cur, tot, ms, lg, ts, wd⟩ := j
  intro hrun
  cases st with
  | starting => simp [stepJob] at hrun
  | cloning => cases hcl : env.clone <;> simp [stepJob, failJob, hcl] at hrun
  | installing => cases hio : env.installOk <;> simp [stepJob, failJob, hio] at hrun
  | organizing => cases ho : env.organizeOk <;> simp [stepJob, failJob, ho] at hrun
  | prompting => cases hp : env.promptOk <;> simp [stepJob, failJob, hp] at hrun
  | triggering =>
    cases htr : env.triggerOk with
    | true =>
      refine ⟨⟨env.commitHash, sl⟩, ?_, hhash, hslug⟩
      simp [stepJob, htr]
    | false => simp [stepJob, failJob, htr] at hrun
  | running =>
    cases had : env.agentDone with
    | true => simp [stepJob, had] at hrun
    | false =>
      have hj := h (by rfl)
      simpa [stepJob, had] using hj
  | completed => simp [stepJob] at hrun
  | failed => simp [stepJob] at hrun

/-- One step preserves the running-implies-non-empty-log invariant. -/
theorem stepJob_runLogs (env : Env) (j : Job) (h : RunLogsInv j) :
    RunLogsInv (stepJob env j) := by
  obtain ⟨sl, bn, src, st, cur, tot, ms, lg, ts, wd⟩ := j
  intro hrun
  cases st with
  | starting => simp [stepJob] at hrun
  | cloning => cases hcl : env.clone <;> simp [stepJob, failJob, hcl] at hrun
  | installing => cases hio : env.installOk <;> simp [stepJob, failJob, hio] at hrun
  | organizing => cases ho : env.organizeOk <;> simp [stepJob, failJob, ho] at hrun
  | prompting => cases hp : env.promptOk <;> simp [stepJob, failJob, hp] at hrun
  | triggering =>
    cases htr : env.triggerOk with
    | true => simp [stepJob, htr]
    | false => simp [stepJob, failJob, htr] at hrun
  | running =>
    cases had : env.agentDone with
    | true => simp [stepJob, had] at hrun
    | false =>
      have hj := h (by rfl)
      simpa [stepJob, had] using hj
  | completed => simp [stepJob] at hrun
  | failed => simp [stepJob] at hrun

/-- One step preserves the failed-message invariant. -/
theorem stepJob_failInv (env : Env) (j : Job) (h : FailInv j) :
    FailInv (stepJob env j) := by
  obtain ⟨sl, bn, src, st, cur, tot, ms, lg, ts, wd⟩ := j
  intro hfail
  cases st with
  | starting => simp [stepJob] at hfail
  | cloning =>
    cases hcl : env.clone with
    | cloned dir => simp [stepJob, hcl] at hfail
    | sourceMissing => simp [stepJob, failJob, cloneFailMessage, failureMessages, hcl]
    | networkError => simp [stepJob, failJob, cloneFailMessage, failureMessages, hcl]
    | timedOut => simp [stepJob, failJob, cloneFailMessage, failureMessages, hcl]
  | installing =>
    cases hio : env.installOk with
    | true => simp [stepJob, hio] at hfail
    | false => simp [stepJob, failJob, hio, failureMessages]
  | organizing =>
    cases ho : env.organizeOk with
    | true => simp [stepJob, ho] at hfail
    | false => simp [stepJob, failJob, ho, failureMessages]
  | prompting =>
    cases hp : env.promptOk with
    | true => simp [stepJob, hp] at hfail
    | false => simp [stepJob, failJob, hp, failureMessages]
  | triggering =>
    cases htr : env.triggerOk with
    | true => simp [stepJob, htr] at hfail
    | false => simp [stepJob, failJob, htr, failureMessages]
  | running =>
    cases had : env.agentDone with
    | true => simp [stepJob, had] at hfail
    | false =>
      have hj := h (by simpa [stepJob, had] using hfail)
      simpa [stepJob, had] using hj
  | completed => simp [stepJob] at hfail
  | failed =>
    have hj := h (by rfl)
    simpa [stepJob] using hj

/-- Any number of steps preserves the running-task-state invariant. -/
theorem runSteps_runTask (env : Env) (j : Job) (hslug : j.slug ≠ "")
    (hhash : env.commitHash ≠ "") (h : RunTaskInv j) (m : Nat) :
    RunTaskInv (runSteps env j m) := by
  induction m generalizing j with
  | zero => exact h
  | succ k ih =>
    exact ih (stepJob env j) (by rw [stepJob_slug]; exact hslug)
      (stepJob_runTask env j hslug hhash h)

/-- Any number of steps preserves the running-implies-log invariant. -/
theorem runSteps_runLogs (env : Env) (j : Job) (h : RunLogsInv j) (m : Nat) :
    RunLogsInv (runSteps env j m) := by
  induction m generalizing j with
  | zero => exact h
  | succ k ih => exact ih (stepJob env j) (stepJob_runLogs env j h)

/-- Any number of steps preserves the failed-message invariant. -/
theorem runSteps_failInv (env : Env) (j : Job) (h : FailInv j) (m : Nat) :
    FailInv (runSteps env j m) := by
  induction m generalizing j with
  | zero => exact h
  | succ k ih => exact ih (stepJob env j) (stepJob_failInv env j h)

/-- A successful creation admits exactly the fresh initial job at the head
of the registry, and its status entry is retrievable. -/
theorem createJob_admits {r : List Job} {req : CreateRequest}
    {res : CreateResponse} {r' : List Job} {j : Job}
    (hc : createJob r req = Except.ok (res, r'))
    (hj : getJob r' res.clientSlug = some j) :
    ∃ name src, j = initialJob res.clientSlug name src ∧ res.clientSlug ≠ "" := by
  obtain ⟨name, color, src, hv, hrrs, hst, hr', hne, hfree, hresv⟩ := createJob_ok_cases hc
  refine ⟨name, src, ?_, hne⟩
  rw [hr'] at hj
  have h2 : getJob (initialJob res.clientSlug name src :: r) res.clientSlug =
      some (initialJob res.clientSlug name src) :=
    getJob_cons_self (initialJob res.clientSlug name src) r
  rw [h2] at hj
  exact (Option.some.inj hj).symm

/-- The allocator returns the base itself when the base is free. -/
theorem resolveSlug_first (r : List Job) (base : String)
    (h : slugFree r base = true) : resolveSlug r base = some base := by
  unfold resolveSlug slugCandidates
  exact List.find?_cons_of_pos _ h

/-- When the base is blocked but its dash-2 variant is free, the allocator
returns the dash-2 variant. -/
theorem resolveSlug_second (r : List Job) (base : String)
    (h1 : slugFree r base = false) (h2 : slugFree r (base ++ "-2") = true) :
    resolveSlug r base = some (base ++ "-2") := by
  unfold resolveSlug slugCandidates
  rw [List.find?_cons_of_neg _ (by simp [h1])]
  obtain ⟨k, hk⟩ : ∃ k, r.length + reservedSlugs.length + 1 = k + 1 :=
    ⟨r.length + reservedSlugs.length, rfl⟩
  rw [hk, List.range_succ_eq_map, List.map_cons]
  have he : base ++ "-" ++ toString (0 + 2) = base ++ "-2" := by
    rw [stringAppend_assoc]
    exact congrArg (base ++ ·) rfl
  rw [he, List.find?_cons_of_pos _ h2]

/-- A reserved explicit slug that resolves successfully is suffixed: the
result is the reserved name plus a non-empty suffix. -/
theorem resolveRequestSlug_reserved {r : List Job} {name s out : String}
    (h : resolveRequestSlug r name (some s) = Except.ok out)
    (hres : reservedSlugs.contains s = true) :
    ∃ t, t ≠ "" ∧ out = s ++ t := by
  by_cases hv : validSlugPattern s = true
  · by_cases ht : slugTaken r s = true
    · simp [resolveRequestSlug, hv, ht] at h
    · rw [Bool.not_eq_true] at ht
      have hmem : s ∈ reservedSlugs := (contains_mem_iff _ _).mp hres
      cases hr : resolveSlug r s with
      | none => simp [resolveRequestSlug, hv, ht, hmem, hr] at h
      | some s2 =>
        have hs2 : s2 = out := by
          simp [resolveRequestSlug, hv, ht, hmem, hr] at h
          exact h
        subst hs2
        obtain ⟨_, h2, h3⟩ := resolveSlug_ok hr
        rcases h3 with h3 | ⟨t, htne, h3⟩
        · rw [h3, hres] at h2
          exact Bool.noConfusion h2
        · exact ⟨t, htne, h3⟩
  · simp [resolveRequestSlug, hv] at h

/-- C1: for every admitted, non-deleted job with slug s, a second creation
request specifying the same explicit slug s fails with a conflict error
whose message references the slug, and no second job is admitted under s. -/
theorem C1_duplicate_slug_conflict (r : List Job) (req : CreateRequest)
    (name color : String) (src : JobSource) (s : String)
    (hval : validateFields req = Except.ok (name, color, src))
    (hslug : req.slug = some s)
    (hpat : validSlugPattern s = true)
    (htaken : slugTaken r s = true) :
    createJob r req = Except.error (CreateError.conflict (conflictMessage s)) ∧
      containsSub (conflictMessage s) s = true ∧
      ∀ out, createJob r req ≠ Except.ok out := by
  have hc : createJob r req = Except.error (CreateError.conflict (conflictMessage s)) := by
    simp [createJob, hval, resolveRequestSlug, hslug, hpat, htaken]
  refine ⟨hc, ?_, ?_⟩
  · exact containsSub_sandwich "Slug " s " is already taken"
  · intro out hout
    rw [hc] at hout
    exact Except.noConfusion hout

/-- C1 witness: a concrete duplicate explicit-slug request is rejected with
the conflict message naming the slug. -/
theorem C1_witness :
    createJob [initialJob "acme-co" "Acme Co" (JobSource.template "default-template")]
        reqExplicit =
      Except.error (CreateError.conflict (conflictMessage "acme-co")) ∧
      containsSub (conflictMessage "acme-co") "acme-co" = true ∧
      ∀ out,
        createJob [initialJob "acme-co" "Acme Co" (JobSource.template "default-template")]
            reqExplicit ≠ Except.ok out :=
  C1_duplicate_slug_conflict _ reqExplicit "Acme Co" "#123ABC"
    (JobSource.template "default-template") "acme-co" (by rfl) (by rfl) (by rfl) (by rfl)

/-- C5: the status read is a deterministic function of the committed job
record: two reads that see the same committed record return identical
views (state, message, logs and the rest), and the view is exactly the
projection of the record. -/
theorem C5_status_deterministic (r1 r2 : List Job) (s : String)
    (h : getJob r1 s = getJob r2 s) :
    statusRead r1 s = statusRead r2 s ∧
      ∀ j, getJob r1 s = some j → statusRead r1 s = some (viewOf j) := by
  constructor
  · unfold statusRead
    rw [h]
  · intro j hj
    unfold statusRead
    rw [hj]
    rfl

/-- C5 witness: two concrete registries agreeing on a record give identical
status views. -/
theorem C5_witness :
    statusRead [jW] "test-business" = statusRead rW2 "test-business" ∧
      ∀ j, getJob [jW] "test-business" = some j →
        statusRead [jW] "test-business" = some (viewOf j) :=
  C5_status_deterministic [jW] rW2 "test-business" (by rfl)

/-- C2: for every admitted job and every pair of successive status
observations taken while the state is not failed, currentStep does not
decrease; and every observation satisfies 0 ≤ currentStep ≤ totalSteps,
both fields being natural numbers in this embedding. -/
theorem C2_progress_monotone (env : Env) (r : List Job) (req : CreateRequest)
    (res : CreateResponse) (r' : List Job) (j : Job)
    (hc : createJob r req = Except.ok (res, r'))
    (hj : getJob r' res.clientSlug = some j) :
    (∀ n m : Nat, (runSteps env j n).state ≠ JobState.failed →
       (runSteps env j (n + m)).state ≠ JobState.failed →
       (runSteps env j n).currentStep ≤ (runSteps env j (n + m)).currentStep) ∧
    (∀ n : Nat, (runSteps env j n).currentStep ≤ (runSteps env j n).totalSteps) := by
  obtain ⟨name, src, hjn, hne⟩ := createJob_admits hc hj
  have hinv : StepInv j := by
    rw [hjn]
    exact ⟨rfl, Nat.zero_le _, fun _ => rfl⟩
  constructor
  · intro n m _ _
    rw [runSteps_add]
    exact runSteps_mono env _ (runSteps_stepInv env j hinv n) m
  · intro n
    obtain ⟨_, hb, _⟩ := runSteps_stepInv env j hinv n
    exact hb

/-- C2 witness: concrete observations of a concrete job have monotone,
bounded step counters. -/
theorem C2_witness :
    (runSteps envOk jW 1).currentStep ≤ (runSteps envOk jW (1 + 2)).currentStep ∧
      (runSteps envOk jW 3).currentStep ≤ (runSteps envOk jW 3).totalSteps := by
  have h := C2_progress_monotone envOk [] reqT
    { clientSlug := "test-business", state := JobState.starting } [jW] jW (by rfl) (by rfl)
  exact ⟨h.1 1 2 (by decide) (by decide), h.2 3⟩

/-- C3: for every admitted job, whenever its observed state is running, its
task state is present with non-empty base commit hash and branch name,
provided the commit hash the provisioner captured is non-empty. -/
theorem C3_running_taskstate (env : Env) (r : List Job) (req : CreateRequest)
    (res : CreateResponse) (r' : List Job) (j : Job)
    (hc : createJob r req = Except.ok (res, r'))
    (hj : getJob r' res.clientSlug = some j)
    (hhash : env.commitHash ≠ "") (n : Nat)
    (hrun : (runSteps env j n).state = JobState.running) :
    ∃ ts, (runSteps env j n).taskState = some ts ∧
      ts.baseCommitHash ≠ "" ∧ ts.branchName ≠ "" := by
  obtain ⟨name, src, hjn, hne⟩ := createJob_admits hc hj
  have hslug : j.slug ≠ "" := by rw [hjn]; exact hne
  have h0 : RunTaskInv j := by
    rw [hjn]
    intro hr
    simp [initialJob] at hr
  exact runSteps_runTask env j hslug hhash h0 n hrun

/-- C3 witness: after six steps of a fully successful environment the
concrete job is running with a populated, non-empty task state. -/
theorem C3_witness :
    ∃ ts, (runSteps envOk jW 6).taskState = some ts ∧
      ts.baseCommitHash ≠ "" ∧ ts.branchName ≠ "" :=
  C3_running_taskstate envOk [] reqT
    { clientSlug := "test-business", state := JobState.starting } [jW] jW
    (by rfl) (by rfl) (by decide) 6 (by rfl)

/-- C7: for every admitted job, state failed implies the message is
non-empty and is one of the step-failure descriptions, each of which names
the step that failed. -/
theorem C7_failed_message (env : Env) (r : List Job) (req : CreateRequest)
    (res : CreateResponse) (r' : List Job) (j : Job)
    (hc : createJob r req = Except.ok (res, r'))
    (hj : getJob r' res.clientSlug = some j) (n : Nat)
    (hfail : (runSteps env j n).state = JobState.failed) :
    (runSteps env j n).message ≠ "" ∧
      (runSteps env j n).message ∈ failureMessages := by
  obtain ⟨name, src, hjn, hne⟩ := createJob_admits hc hj
  have h0 : FailInv j := by
    rw [hjn]
    intro hf
    simp [initialJob] at hf
  have hmem := runSteps_failInv env j h0 n hfail
  have hnonempty : ∀ m ∈ failureMessages, m ≠ "" := by decide
  exact ⟨hnonempty _ hmem, hmem⟩

/-- C7 witness: the concrete job failed by a missing repository carries a
non-empty step-failure message. -/
theorem C7_witness :
    (runSteps envBadRepo jWR 2).message ≠ "" ∧
      (runSteps envBadRepo jWR 2).message ∈ failureMessages :=
  C7_failed_message envBadRepo [] reqRepo
    { clientSlug := "test-business", state := JobState.starting } [jWR] jWR
    (by rfl) (by rfl) 2 (by rfl)

/-- C10: for every admitted job, whenever its observed state is running its
log stream is non-empty — installer/agent output and step status lines have
been merged into the log by that point. -/
theorem C10_running_logs (env : Env) (r : List Job) (req : CreateRequest)
    (res : CreateResponse) (r' : List Job) (j : Job)
    (hc : createJob r req = Except.ok (res, r'))
    (hj : getJob r' res.clientSlug = some j) (n : Nat)
    (hrun : (runSteps env j n).state = JobState.running) :
    (runSteps env j n).logs ≠ [] := by
  obtain ⟨name, src, hjn, hne⟩ := createJob_admits hc hj
  have h0 : RunLogsInv j := by
    rw [hjn]
    intro hf
    simp [initialJob] at hf
  exact runSteps_runLogs env j h0 n hrun

/-- C10 witness: the concrete running job has a non-empty log. -/
theorem C10_witness : (runSteps envOk jW 6).logs ≠ [] :=
  C10_running_logs envOk [] reqT
    { clientSlug := "test-business", state := JobState.starting } [jW] jW
    (by rfl) (by rfl) 6 (by rfl)

/-- C6: for every creation request whose repository source does not exist,
the job reaches state failed with a message containing a cloning/repository
term, no partially-initialized working directory remains, and the job stays
in that failed state forever after. -/
theorem C6_clone_failure (env : Env) (r : List Job) (req : CreateRequest)
    (res : CreateResponse) (r' : List Job) (j : Job) (url : String)
    (hc : createJob r req = Except.ok (res, r'))
    (hj : getJob r' res.clientSlug = some j)
    (hurl : req.githubRepoUrl = some url)
    (hclone : env.clone = CloneOutcome.sourceMissing) :
    (runSteps env j 2).state = JobState.failed ∧
      containsSub (runSteps env j 2).message "clone" = true ∧
      containsSub (runSteps env j 2).message "repository" = true ∧
      (runSteps env j 2).workingDir = none ∧
      ∀ m : Nat, runSteps env j (2 + m) = runSteps env j 2 := by
  obtain ⟨name, src, hjn, hne⟩ := createJob_admits hc hj
  have h2 : runSteps env j 2 =
      { slug := res.clientSlug, businessName := name, source := src,
        state := JobState.failed, currentStep := 1, totalSteps := 7,
        message := "Failed to clone repository: repository not found (404)",
        logs := ["Cloning repository",
                 "Failed to clone repository: repository not found (404)"],
        taskState := none, workingDir := none } := by
    rw [hjn]
    show stepJob env (stepJob env (initialJob res.clientSlug name src)) = _
    simp [initialJob, stepJob, hclone, failJob, cloneFailMessage]
  refine ⟨by rw [h2],
    by
      rw [h2]
      show containsSub "Failed to clone repository: repository not found (404)" "clone" = true
      decide,
    by
      rw [h2]
      show containsSub "Failed to clone repository: repository not found (404)" "repository" =
        true
      decide,
    by rw [h2], ?_⟩
  intro m
  rw [runSteps_add env 2 m j]
  exact runSteps_failed env _ (by rw [h2]) m

/-- C6 witness: the concrete missing-repository request ends failed with a
clone message, no working directory, and stays failed. -/
theorem C6_witness :
    (runSteps envBadRepo jWR 2).state = JobState.failed ∧
      containsSub (runSteps envBadRepo jWR 2).message "clone" = true ∧
      containsSub (runSteps envBadRepo jWR 2).message "repository" = true ∧
      (runSteps envBadRepo jWR 2).workingDir = none ∧
      ∀ m : Nat, runSteps envBadRepo jWR (2 + m) = runSteps envBadRepo jWR 2 :=
  C6_clone_failure envBadRepo [] reqRepo
    { clientSlug := "test-business", state := JobState.starting } [jWR] jWR
    "https://github.com/no-such-user/no-such-repo" (by rfl) (by rfl) (by rfl) (by rfl)

/-- C9: for every creation request whose explicit slug is a reserved
identifier, a successful allocation yields a different, suffixed slug that
is itself unreserved; the reserved name is never admitted verbatim. -/
theorem C9_reserved_never_verbatim (r : List Job) (req : CreateRequest)
    (res : CreateResponse) (r' : List Job) (s : String)
    (hok : createJob r req = Except.ok (res, r'))
    (hs : req.slug = some s)
    (hres : reservedSlugs.contains s = true) :
    res.clientSlug ≠ s ∧ reservedSlugs.contains res.clientSlug = false ∧
      ∃ t, t ≠ "" ∧ res.clientSlug = s ++ t := by
  obtain ⟨name, color, src, hv, hrrs, _, _, _, _, hresv⟩ := createJob_ok_cases hok
  rw [hs] at hrrs
  refine ⟨?_, hresv, resolveRequestSlug_reserved hrrs hres⟩
  intro he
  rw [he, hres] at hresv
  exact Bool.noConfusion hresv

/-- C9 witness: the concrete reserved slug admin is allocated as admin-2,
never verbatim. -/
theorem C9_witness :
    ({ clientSlug := "admin-2", state := JobState.starting } : CreateResponse).clientSlug ≠
        "admin" ∧
      reservedSlugs.contains
        ({ clientSlug := "admin-2", state := JobState.starting } : CreateResponse).clientSlug
        = false ∧
      ∃ t, t ≠ "" ∧
        ({ clientSlug := "admin-2", state := JobState.starting } : CreateResponse).clientSlug
          = "admin" ++ t :=
  C9_reserved_never_verbatim [] reqReserved
    { clientSlug := "admin-2", state := JobState.starting }
    [initialJob "admin-2" "Reserved Business" (JobSource.template "default-template")]
    "admin" (by rfl) (by rfl) (by rfl)

/-- C4: a creation request carrying the required business/branding fields
and exactly one source returns immediately with the slug and state starting,
both when a valid free explicit slug is supplied and when no explicit slug
is given and the slug is derived from the business name; a missing required
field or an invalid color or slug format fails with a client error
identifying the offending field, and no job is admitted (the result is an
error, not a registry). -/
theorem C4_creation_validation (r : List Job) (req : CreateRequest) :
    (∀ name color src s, validateFields req = Except.ok (name, color, src) →
        req.slug = some s → validSlugPattern s = true → slugTaken r s = false →
        s ∉ reservedSlugs →
        createJob r req =
          Except.ok ({ clientSlug := s, state := JobState.starting },
            initialJob s name src :: r)) ∧
    (∀ name color src, validateFields req = Except.ok (name, color, src) →
        req.slug = none → normalizeSlug name ≠ "" →
        slugTaken r (normalizeSlug name) = false →
        reservedSlugs.contains (normalizeSlug name) = false →
        createJob r req =
          Except.ok ({ clientSlug := normalizeSlug name, state := JobState.starting },
            initialJob (normalizeSlug name) name src :: r)) ∧
    (req.businessName = none →
        createJob r req = Except.error (CreateError.missingField "businessName")) ∧
    (∀ name, req.businessName = some name → req.primaryColor = none →
        createJob r req = Except.error (CreateError.missingField "primaryColor")) ∧
    (∀ name color, req.businessName = some name → req.primaryColor = some color →
        isHexColor color = false →
        createJob r req =
          Except.error (CreateError.invalidField "primaryColor"
            "must be a hex color like #RRGGBB")) ∧
    (∀ name color, req.businessName = some name → req.primaryColor = some color →
        isHexColor color = true → req.templateId = none → req.githubRepoUrl = none →
        createJob r req =
          Except.error (CreateError.missingField "templateId or githubRepoUrl")) ∧
    (∀ name color t u, req.businessName = some name → req.primaryColor = some color →
        isHexColor color = true → req.templateId = some t → req.githubRepoUrl = some u →
        createJob r req =
          Except.error (CreateError.invalidField "source"
            "provide exactly one of templateId or githubRepoUrl")) ∧
    (∀ name color src s, validateFields req = Except.ok (name, color, src) →
        req.slug = some s → validSlugPattern s = false →
        createJob r req =
          Except.error (CreateError.invalidField "slug"
            "must contain only lowercase letters, digits and hyphens")) := by
  refine ⟨?_, ?_, ?_, ?_, ?_, ?_, ?_, ?_⟩
  · intro name color src s hval hslug hpat hfree hresv
    simp [createJob, hval, resolveRequestSlug, hslug, hpat, hfree, hresv]
  · intro name color src hval hslug hbase hfree hresv
    have hmem1 : normalizeSlug name ∉ reservedSlugs := fun hm => by
      rw [(contains_mem_iff _ _).mpr hm] at hresv
      exact Bool.noConfusion hresv
    have hfree1 : slugFree r (normalizeSlug name) = true := by
      simp [slugFree, hfree, hresv, hmem1]
    simp [createJob, hval, resolveRequestSlug, hslug, hbase,
      resolveSlug_first r _ hfree1]
  · intro hbn
    simp [createJob, validateFields, hbn]
  · intro name hbn hpc
    simp [createJob, validateFields, hbn, hpc]
  · intro name color hbn hpc hcol
    simp [createJob, validateFields, hbn, hpc, hcol]
  · intro name color hbn hpc hcol ht hu
    simp [createJob, validateFields, hbn, hpc, hcol, ht, hu]
  · intro name color t u hbn hpc hcol ht hu
    simp [createJob, validateFields, hbn, hpc, hcol, ht, hu]
  · intro name color src s hval hslug hpat
    simp [createJob, hval, resolveRequestSlug, hslug, hpat]

/-- C4 witness: the concrete valid explicit-slug request is admitted with
the starting acknowledgment, the concrete request with no explicit slug is
admitted under the slug derived from its business name, and a concrete
request missing businessName is rejected naming that field. -/
theorem C4_witness :
    createJob [] reqExplicit =
      Except.ok ({ clientSlug := "acme-co", state := JobState.starting },
        [initialJob "acme-co" "Acme Co" (JobSource.template "default-template")]) ∧
    createJob [] reqT =
      Except.ok ({ clientSlug := normalizeSlug "Test Business",
                   state := JobState.starting },
        [initialJob (normalizeSlug "Test Business") "Test Business"
          (JobSource.template "default-template")]) ∧
    createJob []
        { businessName := none, primaryColor := some "#123ABC",
          templateId := some "default-template", githubRepoUrl := none, slug := none } =
      Except.error (CreateError.missingField "businessName") :=
  ⟨(C4_creation_validation [] reqExplicit).1 "Acme Co" "#123ABC"
      (JobSource.template "default-template") "acme-co" (by rfl) (by rfl) (by rfl)
      (by rfl) (by decide),
    (C4_creation_validation [] reqT).2.1 "Test Business" "#123ABC"
      (JobSource.template "default-template") (by rfl) (by rfl) (by decide) (by rfl)
      (by decide),
    (C4_creation_validation []
      { businessName := none, primaryColor := some "#123ABC",
        templateId := some "default-template", githubRepoUrl := none,
        slug := none }).2.2.1 (by rfl)⟩

/-- C8: creating two jobs from the same candidate business name with no
explicit slug allocates two distinct slugs: the first is the normalized
name, and the second is derived deterministically from the first normalized
slug by appending the numeric suffix dash-2. -/
theorem C8_derived_slug_suffix (r : List Job) (req : CreateRequest)
    (name color : String) (src : JobSource)
    (hval : validateFields req = Except.ok (name, color, src))
    (hslug : req.slug = none)
    (hbase : normalizeSlug name ≠ "")
    (hresv : reservedSlugs.contains (normalizeSlug name) = false)
    (hfree : slugTaken r (normalizeSlug name) = false)
    (hfree2 : slugTaken r (normalizeSlug name ++ "-2") = false) :
    ∃ r1 r2 : List Job,
      createJob r req =
        Except.ok ({ clientSlug := normalizeSlug name, state := JobState.starting }, r1) ∧
      createJob r1 req =
        Except.ok ({ clientSlug := normalizeSlug name ++ "-2",
                     state := JobState.starting }, r2) ∧
      normalizeSlug name ++ "-2" ≠ normalizeSlug name := by
  have hne2 : normalizeSlug name ++ "-2" ≠ normalizeSlug name := by
    intro he
    have hl := congrArg String.length he
    rw [String.length_append, show String.length "-2" = 2 from rfl] at hl
    omega
  have hmem1 : normalizeSlug name ∉ reservedSlugs := fun hm => by
    rw [(contains_mem_iff _ _).mpr hm] at hresv
    exact Bool.noConfusion hresv
  have hmem2 : normalizeSlug name ++ "-2" ∉ reservedSlugs := fun hm => by
    have hr2 := reserved_no_dash2 (normalizeSlug name)
    rw [(contains_mem_iff _ _).mpr hm] at hr2
    exact Bool.noConfusion hr2
  have hfree1 : slugFree r (normalizeSlug name) = true := by
    simp [slugFree, hfree, hresv, hmem1]
  have hres1 : resolveRequestSlug r name none = Except.ok (normalizeSlug name) := by
    simp [resolveRequestSlug, hbase, resolveSlug_first r _ hfree1]
  have hc1 : createJob r req =
      Except.ok ({ clientSlug := normalizeSlug name, state := JobState.starting },
        initialJob (normalizeSlug name) name src :: r) := by
    simp [createJob, hval, hslug, hres1]
  have htaken1 : slugFree (initialJob (normalizeSlug name) name src :: r)
      (normalizeSlug name) = false := by
    simp [slugFree, slugTaken_cons, initialJob]
  have hfree2' : slugFree (initialJob (normalizeSlug name) name src :: r)
      (normalizeSlug name ++ "-2") = true := by
    simp [slugFree, slugTaken_cons, initialJob, hfree2, hmem2, Ne.symm hne2]
  have hres2 : resolveRequestSlug (initialJob (normalizeSlug name) name src :: r) name
      none = Except.ok (normalizeSlug name ++ "-2") := by
    simp [resolveRequestSlug, hbase, resolveSlug_second _ _ htaken1 hfree2']
  have hc2 : createJob (initialJob (normalizeSlug name) name src :: r) req =
      Except.ok ({ clientSlug := normalizeSlug name ++ "-2",
                   state := JobState.starting },
        initialJob (normalizeSlug name ++ "-2") name src ::
          (initialJob (normalizeSlug name) name src :: r)) := by
    simp [createJob, hval, hslug, hres2]
  exact ⟨_, _, hc1, hc2, hne2⟩

/-- C8 witness: creating twice from the concrete name yields test-business
and then test-business-2. -/
theorem C8_witness :
    ∃ r1 r2 : List Job,
      createJob [] reqT =
        Except.ok ({ clientSlug := normalizeSlug "Test Business",
                     state := JobState.starting }, r1) ∧
      createJob r1 reqT =
        Except.ok ({ clientSlug := normalizeSlug "Test Business" ++ "-2",
                     state := JobState.starting }, r2) ∧
      normalizeSlug "Test Business" ++ "-2" ≠ normalizeSlug "Test Business" :=
  C8_derived_slug_suffix [] reqT "Test Business" "#123ABC"
    (JobSource.template "default-template") (by rfl) (by rfl) (by decide) (by decide)
    (by rfl) (by rfl)
